import Mathlib

/-!
Verification of the AgentEval math-evaluation notebook (`agenteval_cq_math.ipynb`)
against its natural-language specification.

The notebook's pure logic is shallowly embedded below:
* `read_without_groundtruth` — the log filter that strips ground-truth lines;
* `Criterion.write_json` / `Criterion.parse_json_str` — criteria-store
  (de)serialization, modelled from the spec (the functions themselves live in
  a module that is not part of the sources under inspection);
* the aggregation cell (`nl2int`, the per-criterion tally with its
  `try/except: pass`, `average_s`/`average_f`, confidence intervals);
* the batch-processing loop that builds the `outcome` mapping.

Python strings are modelled as Lean `String`; a file read with `readlines` is
modelled as the `List String` of its lines; Python dictionaries are modelled
as association lists with in-place update; Python `eval` is modelled as an
interpreter that records, as a trace, every call expression it executes.
-/

/-- Characters stripped by Python `str.strip` / `str.rstrip`. -/
def pyWhitespace (c : Char) : Bool :=
  c == ' ' || c == '\t' || c == '\n' || c == '\r' || c == '\x0b' || c == '\x0c'

/-- Python `s.rstrip()` on a character list: remove trailing whitespace. -/
def rstripChars (l : List Char) : List Char :=
  (l.reverse.dropWhile pyWhitespace).reverse

/-- Python `s.strip()` on a character list: remove leading and trailing
whitespace. -/
def stripChars (l : List Char) : List Char :=
  rstripChars (l.dropWhile pyWhitespace)

/-- Python `line.replace(",", "")`: every comma is removed. -/
def removeCommas (l : List Char) : List Char :=
  l.filter (fun c => !(c == ','))

/-- Python `s.split(sep)` for a one-character separator, keeping empty
parts. -/
def splitOnChar (sep : Char) : List Char → List (List Char)
  | [] => [[]]
  | c :: t =>
    if c = sep then [] :: splitOnChar sep t
    else
      match splitOnChar sep t with
      | [] => [[c]]
      | h :: t2 => (c :: h) :: t2

/-- Whether the first character list occurs at the start of the second. -/
def startsWithB : List Char → List Char → Bool
  | [], _ => true
  | _ :: _, [] => false
  | a :: as, b :: bs => a = b && startsWithB as bs

/-- Whether the first character list occurs contiguously inside the second. -/
def containsSeq (ns : List Char) : List Char → Bool
  | [] => startsWithB ns []
  | h :: t => startsWithB ns (h :: t) || containsSeq ns t

/-- Python `needle in hay` on strings: substring containment. -/
def hasSub (needle hay : String) : Bool :=
  containsSeq needle.toList hay.toList

/-- The guard of the `if` in `read_without_groundtruth`: the line mentions
none of the three ground-truth markers. -/
def cleanLine (l : String) : Bool :=
  !hasSub "is_correct" l && !hasSub "correct_ans" l && !hasSub "check_result" l

/-- The correctness label extracted from an `is_correct` line:
`line.replace(",", "").split(":")[-1].rstrip().strip()`. -/
def extractCorrectness (line : String) : String :=
  ⟨stripChars (rstripChars ((splitOnChar ':' (removeCommas line.toList)).getLastD []))⟩

/-- The `for line in f` loop of `read_without_groundtruth`, carrying the
`output_dictionary` accumulator and the (possibly still unbound) `correctness`
variable. -/
def rwgLoop : List String → String → Option String → String × Option String
  | [], out, corr => (out, corr)
  | l :: rest, out, corr =>
    if cleanLine l then
      rwgLoop rest (out ++ l) corr
    else if hasSub "is_correct" l then
      rwgLoop rest out (some (extractCorrectness l))
    else
      rwgLoop rest out corr

/-- `read_without_groundtruth` on the lines of the log file.  When no line
contains `is_correct` the Python function raises `UnboundLocalError` at its
`return` statement (the `correctness` local was never bound); this is the
`none` case. -/
def read_without_groundtruth (lines : List String) : Option (String × String) :=
  match rwgLoop lines "" none with
  | (_, none) => none
  | (out, some c) => some (out, c)

/-- Concatenation of a list of strings (the effect of the repeated
`output_dictionary += line`). -/
def concatAll : List String → String
  | [] => ""
  | s :: t => s ++ concatAll t

/-- The evolution of the `correctness` local over the lines of the file:
each `is_correct` line overwrites it. -/
def lastCorrectness : List String → Option String → Option String
  | [], corr => corr
  | l :: t, corr =>
    lastCorrectness t (if hasSub "is_correct" l then some (extractCorrectness l) else corr)

theorem rwgLoop_fst (ls : List String) :
    ∀ out corr, (rwgLoop ls out corr).1 = out ++ concatAll (ls.filter cleanLine) := by
  induction ls with
  | nil => intro out corr; simp [rwgLoop, concatAll]
  | cons l t ih =>
    intro out corr
    by_cases h : cleanLine l
    · simp [rwgLoop, h, ih, concatAll, List.filter_cons, String.append_assoc]
    · by_cases h2 : hasSub "is_correct" l
      · simp [rwgLoop, h, h2, ih, List.filter_cons]
      · simp [rwgLoop, h, h2, ih, List.filter_cons]

theorem rwgLoop_snd (ls : List String) :
    ∀ out corr, (rwgLoop ls out corr).2 = lastCorrectness ls corr := by
  induction ls with
  | nil => intro out corr; rfl
  | cons l t ih =>
    intro out corr
    by_cases h : cleanLine l
    · have h1 : hasSub "is_correct" l = false := by
        have := h
        simp [cleanLine, Bool.and_eq_true, Bool.not_eq_true'] at this
        exact this.1.1
      simp [rwgLoop, lastCorrectness, h, h1, ih]
    · by_cases h2 : hasSub "is_correct" l
      · simp [rwgLoop, lastCorrectness, h, h2, ih]
      · simp [rwgLoop, lastCorrectness, h, h2, ih]

theorem lastCorrectness_getLast (ls : List String) :
    ∀ corr, lastCorrectness ls corr =
      match (ls.filter fun l => hasSub "is_correct" l).getLast? with
      | some l => some (extractCorrectness l)
      | none => corr := by
  induction ls with
  | nil => intro corr; rfl
  | cons l t ih =>
    intro corr
    cases h : hasSub "is_correct" l with
    | true =>
      have hstep : lastCorrectness (l :: t) corr =
          lastCorrectness t (some (extractCorrectness l)) := by
        simp [lastCorrectness, h]
      have hfil : (l :: t).filter (fun l => hasSub "is_correct" l) =
          l :: t.filter (fun l => hasSub "is_correct" l) := by
        simp [List.filter_cons, h]
      rw [hstep, ih, hfil, List.getLast?_cons]
      cases hfl : (t.filter fun l => hasSub "is_correct" l).getLast? with
      | none => rfl
      | some x => rfl
    | false =>
      simp [lastCorrectness, h, List.filter_cons, ih]

/-- Claim C9: `read_without_groundtruth` returns normally only when some line
of its input contains the substring `is_correct`; with no such line the
`correctness` local is never bound and the call fails, and with such lines it
returns the pair of the filtered transcript and the correctness label taken
from the last such line. -/
theorem claim_C9_correctness_binding (lines : List String) :
    ((lines.filter fun l => hasSub "is_correct" l) = [] →
      read_without_groundtruth lines = none)
    ∧ (∀ l0, (lines.filter fun l => hasSub "is_correct" l).getLast? = some l0 →
      read_without_groundtruth lines =
        some (concatAll (lines.filter cleanLine), extractCorrectness l0)) := by
  constructor
  · intro hnone
    unfold read_without_groundtruth
    have hsnd := rwgLoop_snd lines "" none
    rw [lastCorrectness_getLast, hnone] at hsnd
    simp only [List.getLast?_nil] at hsnd
    rcases hp : rwgLoop lines "" none with ⟨a, b⟩
    rw [hp] at hsnd
    simp at hsnd
    subst hsnd
    rfl
  · intro l0 hlast
    unfold read_without_groundtruth
    have hsnd := rwgLoop_snd lines "" none
    rw [lastCorrectness_getLast, hlast] at hsnd
    have hfst := rwgLoop_fst lines "" none
    rcases hp : rwgLoop lines "" none with ⟨a, b⟩
    rw [hp] at hsnd hfst
    simp at hsnd hfst
    subst hsnd
    subst hfst
    simp

/-- Claim C9 witness at a concrete two-line log. -/
theorem claim_C9_correctness_binding_witness :
    read_without_groundtruth ["x = 2\n", "is_correct: true\n"] =
      some ("x = 2\n", "true") := by
  have h := (claim_C9_correctness_binding ["x = 2\n", "is_correct: true\n"]).2
    "is_correct: true\n" (by decide)
  rw [h]
  decide

/-- Claim C8: ground truth never reaches the criteria-synthesis stage.  For
any input on which `read_without_groundtruth` returns, the returned transcript
is the concatenation of exactly the lines free of the three ground-truth
markers (so no line of it contains `is_correct`, `correct_ans` or
`check_result`), and two logs whose marker-free lines agree — i.e. logs that
differ only in ground-truth lines — yield the same transcript text. -/
theorem claim_C8_groundtruth_nonleakage (lines : List String)
    (out : String × String) (hread : read_without_groundtruth lines = some out) :
    (out.1 = concatAll (lines.filter cleanLine)
      ∧ ∀ l ∈ lines.filter cleanLine,
          hasSub "is_correct" l = false ∧ hasSub "correct_ans" l = false ∧
            hasSub "check_result" l = false)
    ∧ ∀ lines2 out2, read_without_groundtruth lines2 = some out2 →
        lines.filter cleanLine = lines2.filter cleanLine → out.1 = out2.1 := by
  have main : ∀ (ls : List String) (o : String × String),
      read_without_groundtruth ls = some o → o.1 = concatAll (ls.filter cleanLine) := by
    intro ls o ho
    unfold read_without_groundtruth at ho
    have hfst := rwgLoop_fst ls "" none
    rcases hp : rwgLoop ls "" none with ⟨a, b⟩
    rw [hp] at ho hfst
    cases b with
    | none => simp at ho
    | some c =>
      simp at ho hfst
      rw [← ho]
      simpa using hfst
  refine ⟨⟨main lines out hread, ?_⟩, ?_⟩
  · intro l hl
    have hc : cleanLine l = true := (List.mem_filter.mp hl).2
    simp [cleanLine, Bool.and_eq_true, Bool.not_eq_true'] at hc
    exact ⟨hc.1.1, hc.1.2, hc.2⟩
  · intro lines2 out2 h2 heq
    rw [main lines out hread, main lines2 out2 h2, heq]

/-- Claim C8 witness: two concrete logs differing only in their ground-truth
lines produce the same ground-truth-free transcript. -/
theorem claim_C8_groundtruth_nonleakage_witness :
    "x = 2\n" = concatAll (["x = 2\n", "is_correct: true\n"].filter cleanLine)
      ∧ ∀ l ∈ ["x = 2\n", "is_correct: true\n"].filter cleanLine,
          hasSub "is_correct" l = false ∧ hasSub "correct_ans" l = false ∧
            hasSub "check_result" l = false :=
  (claim_C8_groundtruth_nonleakage ["x = 2\n", "is_correct: true\n"]
    ("x = 2\n", "true") (by decide)).1

/-- A single evaluation criterion: name, description, ordered accepted
values. -/
structure Criterion where
  name : String
  description : String
  accepted_values : List String
deriving DecidableEq

/-- Python dictionary lookup on an association list with unique keys. -/
def dlookup {β : Type} (k : String) : List (String × β) → Option β
  | [] => none
  | (k0, v0) :: t => if k = k0 then some v0 else dlookup k t

/-- Membership test on a list of strings. -/
def memB (v : String) : List String → Bool
  | [] => false
  | x :: t => v = x || memB v t

/-- Whether a list of strings is duplicate-free. -/
def nodupB : List String → Bool
  | [] => true
  | x :: t => !memB x t && nodupB t

/-- The Criterion invariant of the spec: non-empty name, non-empty
duplicate-free accepted values. -/
def critValidB (c : Criterion) : Bool :=
  !(c.name = "") && (!(c.accepted_values = []) && nodupB c.accepted_values)

/-- The Criteria Store invariant of the spec: unique names and every
criterion valid. -/
def storeValidB (store : List Criterion) : Bool :=
  nodupB (store.map Criterion.name) && store.all critValidB

/-- A structured document tree: the parsed form of the persisted criteria
text.  The raw text encoding (`json.dumps` / `json.loads`) is the external
json library; the repository logic builds and consumes this tree. -/
inductive JVal where
  | str (s : String)
  | arr (elems : List JVal)
  | obj (fields : List (String × JVal))

/-- Modelled from the spec: `Criterion.write_json` (serialize), absent from
the sources under inspection.  Produces the ordered mapping from criterion
name to an object with fields `description` and `accepted_values` (section 6
of the spec). -/
def Criterion.write_json (criteria : List Criterion) : JVal :=
  JVal.obj (criteria.map (fun c =>
    (c.name, JVal.obj [("description", JVal.str c.description),
      ("accepted_values", JVal.arr (c.accepted_values.map JVal.str))])))

/-- Reads a list of document values as a list of text labels, failing on any
non-string element. -/
def asStringList : List JVal → Option (List String)
  | [] => some []
  | JVal.str s :: t => (asStringList t).map (fun l => s :: l)
  | _ :: _ => none

/-- Modelled from the spec: deserialization of a single criterion record.
Fails with `MalformedCriteriaDocument` when `description` or
`accepted_values` is missing or ill-typed, when `accepted_values` is empty
or contains duplicates, or when the name is empty (section 4.3 of the
spec). -/
def parseCriterionEntry (nm : String) (v : JVal) : Except String Criterion :=
  match v with
  | JVal.obj fields =>
    match dlookup "description" fields, dlookup "accepted_values" fields with
    | some (JVal.str desc), some (JVal.arr vals) =>
      match asStringList vals with
      | some av =>
        if nm = "" then Except.error "MalformedCriteriaDocument"
        else if av = [] then Except.error "MalformedCriteriaDocument"
        else if nodupB av then Except.ok ⟨nm, desc, av⟩
        else Except.error "MalformedCriteriaDocument"
      | none => Except.error "MalformedCriteriaDocument"
    | _, _ => Except.error "MalformedCriteriaDocument"
  | _ => Except.error "MalformedCriteriaDocument"

/-- Deserialization of the entries of the document mapping, in order. -/
def parseEntries : List (String × JVal) → Except String (List Criterion)
  | [] => Except.ok []
  | (nm, v) :: t =>
    match parseCriterionEntry nm v with
    | Except.error e => Except.error e
    | Except.ok c =>
      match parseEntries t with
      | Except.error e => Except.error e
      | Except.ok cs => Except.ok (c :: cs)

/-- Modelled from the spec: `Criterion.parse_json_str` (deserialize), absent
from the sources under inspection.  A schema-validating parse of the
structured document: it either returns the criteria list or fails with
`MalformedCriteriaDocument`; it never executes document content. -/
def Criterion.parse_json_str : JVal → Except String (List Criterion)
  | JVal.obj entries => parseEntries entries
  | _ => Except.error "MalformedCriteriaDocument"

theorem asStringList_map (ls : List String) :
    asStringList (ls.map JVal.str) = some ls := by
  induction ls with
  | nil => rfl
  | cons s t ih => simp [asStringList, ih]

theorem parseCriterionEntry_write (c : Criterion) (h1 : ¬(c.name = ""))
    (h2 : ¬(c.accepted_values = [])) (h3 : nodupB c.accepted_values = true) :
    parseCriterionEntry c.name
      (JVal.obj [("description", JVal.str c.description),
        ("accepted_values", JVal.arr (c.accepted_values.map JVal.str))]) =
      Except.ok c := by
  simp [parseCriterionEntry, dlookup, asStringList_map, h1, h2, h3]

/-- Claim C1: round-trip fidelity of criteria-store serialization.  For every
valid store (unique non-empty names, non-empty duplicate-free accepted
values), deserializing the serialized document yields the identical store:
same names, descriptions, and accepted-value sequences in the same order. -/
theorem claim_C1_serialization_roundtrip (store : List Criterion)
    (hvalid : storeValidB store = true) :
    Criterion.parse_json_str (Criterion.write_json store) = Except.ok store := by
  induction store with
  | nil => rfl
  | cons c t ih =>
    have hv := hvalid
    simp [storeValidB, nodupB, List.all_cons, Bool.and_eq_true, critValidB,
      Bool.not_eq_true'] at hv
    obtain ⟨⟨hmem, hnodup⟩, ⟨hname, hav, havnd⟩, hall⟩ := hv
    have htail : storeValidB t = true := by
      simp [storeValidB, Bool.and_eq_true, hnodup]
      intro x hx
      have hx2 := hall x hx
      simp [critValidB, Bool.and_eq_true, Bool.not_eq_true']
      exact hx2
    have hhead := parseCriterionEntry_write c
      (by simpa using hname) (by simpa using hav) havnd
    have ihtail := ih htail
    simp only [Criterion.write_json, List.map_cons, Criterion.parse_json_str,
      parseEntries, hhead] at ihtail ⊢
    rw [ihtail]

/-- Claim C1 witness: a concrete two-criterion store survives the
round trip unchanged. -/
theorem claim_C1_serialization_roundtrip_witness :
    Criterion.parse_json_str (Criterion.write_json
      [⟨"accuracy", "how accurate the answer is", ["poor", "fair", "good"]⟩,
        ⟨"clarity", "how clear the reasoning is", ["low", "high"]⟩]) =
      Except.ok
        [⟨"accuracy", "how accurate the answer is", ["poor", "fair", "good"]⟩,
          ⟨"clarity", "how clear the reasoning is", ["low", "high"]⟩] :=
  claim_C1_serialization_roundtrip _ (by decide)

/-- A Python runtime value, as far as the aggregation cell inspects one:
the stored `actual_success` field may be a string, a boolean, or a number. -/
inductive PyObj where
  | str (s : String)
  | bool (b : Bool)
  | num (n : Int)
deriving DecidableEq

/-- The persisted text of one record's `estimated_performance`, as handed to
`eval`: either the text of a literal dictionary of string labels, or an
arbitrary expression (whose evaluation executes the call it denotes), or
text that is not a Python expression at all. -/
inductive PerfText where
  | dictLit (entries : List (String × String))
  | exprCall (callText : String)
  | malformed
deriving DecidableEq

/-- Python `eval` applied to a persisted `estimated_performance` text
(`tmp_dic = eval(outcome[game]["estimated_performance"])`).  The first
component is the trace of call expressions executed by the evaluation; the
second is the resulting dictionary, `none` when evaluation raises or yields
no dictionary (the surrounding `except: pass` then skips the record). -/
def evalPerf : PerfText → List String × Option (List (String × String))
  | PerfText.dictLit entries => ([], some entries)
  | PerfText.exprCall r => ([r], none)
  | PerfText.malformed => ([], none)

/-- One record of the scored-record batch (one value of the `outcome`
mapping). -/
structure ScoredRec where
  estimated_performance : PerfText
  actual_success : PyObj
deriving DecidableEq

/-- The Python comparison `outcome[game]["actual_success"] == "false"`: only
the exact string `"false"` compares equal; booleans and numbers never equal
a string in Python. -/
def isFalseStr : PyObj → Bool
  | PyObj.str s => s = "false"
  | _ => false

/-- Python dict assignment `d[k] = v`: overwrite the binding in place, or
append a new one. -/
def dictInsert (k : String) (v : Nat) : List (String × Nat) → List (String × Nat)
  | [] => [(k, v)]
  | (k0, v0) :: t => if k0 = k then (k0, v) :: t else (k0, v0) :: dictInsert k v t

/-- The inner `nl2int` loop, `score = 0; for v in accepted_values:
nl2int[v] = score; score += 1`, started at a given score. -/
def insertScores (score : Nat) : List String → List (String × Nat) → List (String × Nat)
  | [], d => d
  | v :: t, d => insertScores (score + 1) t (dictInsert v score d)

/-- The outer `nl2int` loop over every criterion of the loaded criteria
document: a single flat dictionary shared by all criteria. -/
def buildNl2intAux : List Criterion → List (String × Nat) → List (String × Nat)
  | [], d => d
  | c :: t, d => buildNl2intAux t (insertScores 0 c.accepted_values d)

/-- The `nl2int` dictionary of the aggregation cell. -/
def nl2int (store : List Criterion) : List (String × Nat) :=
  buildNl2intAux store []

/-- The ordinal position of a label within a criterion's declared
`accepted_values` (what the spec calls the ordinal score). -/
def posOf (v : String) : List String → Nat
  | [] => 0
  | x :: t => if x = v then 0 else posOf v t + 1

/-- The score `nl2int[tmp_dic[criterion]]` computed inside the `try` block
for one record, `none` when any step raises (`eval` fails, the criterion is
missing from the record, or the value is not a key of `nl2int`). -/
def scoreOf (nl : List (String × Nat)) (criterion : String) (g : ScoredRec) :
    Option Nat :=
  match (evalPerf g.estimated_performance).2 with
  | none => none
  | some tmp =>
    match dlookup criterion tmp with
    | none => none
    | some v => dlookup v nl

/-- One iteration of `for game in outcome`: on success the score is appended
to `task["f"]` when `actual_success == "false"` and to `task["s"]`
otherwise; on any failure the `except: pass` leaves the accumulator
unchanged. -/
def tallyGame (nl : List (String × Nat)) (criterion : String)
    (acc : List Nat × List Nat) (g : String × ScoredRec) : List Nat × List Nat :=
  match scoreOf nl criterion g.2 with
  | none => acc
  | some n =>
    if isFalseStr g.2.actual_success then (acc.1, acc.2 ++ [n])
    else (acc.1 ++ [n], acc.2)

/-- The full `for game in outcome` loop for one criterion. -/
def tallyAll (nl : List (String × Nat)) (criterion : String) :
    List (String × ScoredRec) → List Nat × List Nat → List Nat × List Nat
  | [], acc => acc
  | g :: t, acc => tallyAll nl criterion t (tallyGame nl criterion acc g)

/-- The pair `(task["s"], task["f"])` built for one criterion. -/
def aggregateCriterion (nl : List (String × Nat))
    (outcome : List (String × ScoredRec)) (criterion : String) :
    List Nat × List Nat :=
  tallyAll nl criterion outcome ([], [])

/-- `np.mean` over a list of integer scores: the exact arithmetic mean, with
`none` standing for the NaN produced on an empty list. -/
def npMean (xs : List Nat) : Option ℚ :=
  if xs.length = 0 then none
  else some ((xs.map (fun n => (n : ℚ))).sum / xs.length)

/-- `average_s[criterion] = np.mean(task["s"])`. -/
def average_s (nl : List (String × Nat)) (outcome : List (String × ScoredRec))
    (criterion : String) : Option ℚ :=
  npMean (aggregateCriterion nl outcome criterion).1

/-- `average_f[criterion] = np.mean(task["f"])`. -/
def average_f (nl : List (String × Nat)) (outcome : List (String × ScoredRec))
    (criterion : String) : Option ℚ :=
  npMean (aggregateCriterion nl outcome criterion).2

/-- `conf_interval_s[criterion] = stats.norm.interval(0.95, loc=np.mean(task["s"]),
scale=stats.sem(task["s"]))`.  The numeric interval computation is the
external scipy collaborator (excluded by section 1 of the spec), modelled as
an arbitrary function `ciFn` of the partition list it is computed from. -/
def conf_interval_s (ciFn : List Nat → ℚ × ℚ) (nl : List (String × Nat))
    (outcome : List (String × ScoredRec)) (criterion : String) : ℚ × ℚ :=
  ciFn (aggregateCriterion nl outcome criterion).1

/-- `conf_interval_f[criterion]`, as `conf_interval_s` on `task["f"]`. -/
def conf_interval_f (ciFn : List Nat → ℚ × ℚ) (nl : List (String × Nat))
    (outcome : List (String × ScoredRec)) (criterion : String) : ℚ × ℚ :=
  ciFn (aggregateCriterion nl outcome criterion).2

/-- The text of a persisted criteria document as handed to Python `eval`
(`dictionary_for_eval = eval(open(criteria_file, "r").read())`): either the
text of a literal document, or an arbitrary expression. -/
inductive PyText where
  | literalDoc (doc : JVal)
  | exprCall (callText : String)

/-- Python `eval` applied to the criteria-file text: a literal evaluates to
itself with an empty trace; a call expression is executed — the executed
call is recorded in the trace. -/
def pyEvalText : PyText → List String × Option JVal
  | PyText.literalDoc d => ([], some d)
  | PyText.exprCall r => ([r], none)

/-- The loading of the persisted criteria document in the aggregation cell:
`dictionary_for_eval = eval(open(criteria_file, "r").read())`. -/
def dictionary_for_eval (text : PyText) : List String × Option JVal :=
  pyEvalText text

theorem memB_iff (v : String) : ∀ l : List String, memB v l = true ↔ v ∈ l := by
  intro l
  induction l with
  | nil => simp [memB]
  | cons x t ih => simp [memB, ih, List.mem_cons]

theorem isFalseStr_iff (v : PyObj) : isFalseStr v = true ↔ v = PyObj.str "false" := by
  cases v <;> simp [isFalseStr]

theorem dlookup_dictInsert (k k2 : String) (v : Nat) :
    ∀ d, dlookup k2 (dictInsert k v d) = if k2 = k then some v else dlookup k2 d := by
  intro d
  induction d with
  | nil => by_cases h : k2 = k <;> simp [dictInsert, dlookup, h]
  | cons p t ih =>
    obtain ⟨k0, v0⟩ := p
    by_cases h : k0 = k
    · subst h
      by_cases h2 : k2 = k0 <;> simp [dictInsert, dlookup, h2]
    · by_cases h2 : k2 = k0
      · subst h2
        have hne : ¬k2 = k := h
        simp [dictInsert, dlookup, h, hne]
      · simp [dictInsert, dlookup, h, h2, ih]

theorem insertScores_not_mem (k : String) :
    ∀ (vs : List String) (s : Nat) (d : List (String × Nat)),
    memB k vs = false →
    dlookup k (insertScores s vs d) = dlookup k d := by
  intro vs
  induction vs with
  | nil => intro s d _; rfl
  | cons v t ih =>
    intro s d h
    simp [memB] at h
    rw [insertScores, ih _ _ h.2, dlookup_dictInsert]
    simp [h.1]

theorem insertScores_mem (k : String) :
    ∀ (vs : List String) (s : Nat) (d : List (String × Nat)),
    nodupB vs = true → memB k vs = true →
    dlookup k (insertScores s vs d) = some (s + posOf k vs) := by
  intro vs
  induction vs with
  | nil => intro s d _ hm; simp [memB] at hm
  | cons v t ih =>
    intro s d hn hm
    simp [nodupB, Bool.and_eq_true, Bool.not_eq_true'] at hn
    by_cases h : k = v
    · subst h
      rw [insertScores, insertScores_not_mem _ _ _ _ hn.1, dlookup_dictInsert]
      simp [posOf]
    · simp [memB, h] at hm
      rw [insertScores, ih _ _ hn.2 hm]
      have hvk : ¬v = k := fun he => h he.symm
      simp only [posOf, hvk, if_false, Option.some.injEq]
      omega

theorem buildNl2intAux_not_mem (k : String) :
    ∀ (store : List Criterion) (d : List (String × Nat)),
    (∀ c ∈ store, memB k c.accepted_values = false) →
    dlookup k (buildNl2intAux store d) = dlookup k d := by
  intro store
  induction store with
  | nil => intro d _; rfl
  | cons c t ih =>
    intro d h
    rw [buildNl2intAux, ih _ (fun c2 hc2 => h c2 (List.mem_cons_of_mem _ hc2))]
    exact insertScores_not_mem _ _ _ _ (h c (List.mem_cons_self _ _))

/-- No accepted label occurs in two different criteria of the store. -/
def labelsDisjointB : List Criterion → Bool
  | [] => true
  | c :: t =>
    t.all (fun c2 => c.accepted_values.all (fun v => !memB v c2.accepted_values))
      && labelsDisjointB t

theorem buildNl2intAux_lookup (c : Criterion) (k : String) :
    ∀ (store : List Criterion) (d : List (String × Nat)),
    store.all critValidB = true → labelsDisjointB store = true →
    c ∈ store → memB k c.accepted_values = true →
    dlookup k (buildNl2intAux store d) = some (posOf k c.accepted_values) := by
  intro store
  induction store with
  | nil => intro d _ _ hc _; simp at hc
  | cons c0 t ih =>
    intro d hval hdisj hc hk
    have hval2 := hval
    simp only [List.all_cons, Bool.and_eq_true] at hval2
    have hdisj2 := hdisj
    simp only [labelsDisjointB, Bool.and_eq_true] at hdisj2
    rcases List.mem_cons.mp hc with hceq | hct
    · cases hceq
      have hnodup : nodupB c.accepted_values = true := by
        have := hval2.1
        simp [critValidB, Bool.and_eq_true] at this
        exact this.2.2
      have hrest : ∀ c2 ∈ t, memB k c2.accepted_values = false := by
        intro c2 hc2
        have hall := hdisj2.1
        simp only [List.all_eq_true, Bool.not_eq_true'] at hall
        exact hall c2 hc2 k ((memB_iff k c.accepted_values).mp hk)
      rw [buildNl2intAux, buildNl2intAux_not_mem _ _ _ hrest,
        insertScores_mem _ _ _ _ hnodup hk]
      simp
    · rw [buildNl2intAux]
      exact ih _ hval2.2 hdisj2.2 hct hk

/-- Claim C2 (refuted by the code): the notebook loads the persisted criteria
document with `eval(open(criteria_file, "r").read())` and reads the persisted
`estimated_performance` with `eval(outcome[game]["estimated_performance"])`;
both execute any expression the document contains.  At a criteria file whose
text is the call expression below, loading executes that call (its trace is
non-empty), and likewise for the per-record mapping — the opposite of a
schema-validating parse that never executes document content. -/
theorem claim_C2_eval_executes_document_content :
    (dictionary_for_eval (PyText.exprCall "__import__(os).system(rm -rf)")).1 =
      ["__import__(os).system(rm -rf)"]
    ∧ (evalPerf (PerfText.exprCall "__import__(os).listdir(.)")).1 =
      ["__import__(os).listdir(.)"]
    ∧ (dictionary_for_eval (PyText.exprCall "__import__(os).system(rm -rf)")).1 ≠ [] :=
  ⟨rfl, rfl, by simp [dictionary_for_eval, pyEvalText]⟩

/-- Claim C3 (refuted by the code): a record whose assigned value for
criterion `accuracy` is `excellent`, outside the declared domain
`[poor, good]`, is silently dropped by the aggregation's `except: pass` — it
appears in neither partition, the statistics are computed from the remaining
records alone, and no error is surfaced (the model's aggregation has no error
outcome at all). -/
theorem claim_C3_out_of_domain_value_silently_dropped :
    memB "excellent" ["poor", "good"] = false
    ∧ aggregateCriterion (nl2int [⟨"accuracy", "answer accuracy", ["poor", "good"]⟩])
        [("prealgebra_1.json",
            ⟨PerfText.dictLit [("accuracy", "excellent")], PyObj.str "true"⟩),
         ("prealgebra_2.json",
            ⟨PerfText.dictLit [("accuracy", "good")], PyObj.str "true"⟩)]
        "accuracy" = ([1], [])
    ∧ average_s (nl2int [⟨"accuracy", "answer accuracy", ["poor", "good"]⟩])
        [("prealgebra_1.json",
            ⟨PerfText.dictLit [("accuracy", "excellent")], PyObj.str "true"⟩),
         ("prealgebra_2.json",
            ⟨PerfText.dictLit [("accuracy", "good")], PyObj.str "true"⟩)]
        "accuracy" = some 1 := by
  refine ⟨rfl, rfl, ?_⟩
  show npMean [1] = some 1
  simp [npMean]

/-- Claim C4 (refuted by the code): `nl2int` is one flat dictionary shared by
all criteria, so a label listed by two criteria is overwritten by the later
criterion's position.  With `clarity = [high, low]` and
`depth = [low, mid, high]`, the score used for a `clarity = high` record is
`nl2int[high] = 2` (its index in `depth`), not `0`, the index of `high` in
the `clarity` criterion's own declared order. -/
theorem claim_C4_ordinal_overwritten_across_criteria :
    dlookup "high" (nl2int [⟨"clarity", "", ["high", "low"]⟩,
        ⟨"depth", "", ["low", "mid", "high"]⟩]) = some 2
    ∧ posOf "high" ["high", "low"] = 0
    ∧ aggregateCriterion (nl2int [⟨"clarity", "", ["high", "low"]⟩,
          ⟨"depth", "", ["low", "mid", "high"]⟩])
        [("g1", ⟨PerfText.dictLit [("clarity", "high"), ("depth", "low")],
          PyObj.str "true"⟩)]
        "clarity" = ([2], []) :=
  ⟨rfl, rfl, rfl⟩

/-- The value a record's persisted mapping assigns to a criterion
(`tmp_dic[criterion]`). -/
def valueAt (g : ScoredRec) (criterion : String) : String :=
  match (evalPerf g.estimated_performance).2 with
  | some tmp => (dlookup criterion tmp).getD ""
  | none => ""

/-- A scored record is valid for a store (the Scored Record invariant of the
spec): its `estimated_performance` text evaluates to a mapping assigning
every criterion a value within that criterion's accepted domain, and
`actual_success` is the two-valued label. -/
def recValidB (store : List Criterion) (g : ScoredRec) : Bool :=
  (match (evalPerf g.estimated_performance).2 with
   | none => false
   | some tmp =>
     store.all (fun c =>
       match dlookup c.name tmp with
       | none => false
       | some v => memB v c.accepted_values))
  && (g.actual_success = PyObj.str "true" || g.actual_success = PyObj.str "false")

theorem isFalseStr_eq (v : PyObj) :
    isFalseStr v = decide (v = PyObj.str "false") := by
  cases v with
  | str s => by_cases h : s = "false" <;> simp [isFalseStr, h]
  | bool b => simp [isFalseStr]
  | num n => simp [isFalseStr]

theorem scoreOf_valid (store : List Criterion) (c : Criterion) (g : ScoredRec)
    (hval : store.all critValidB = true) (hdisj : labelsDisjointB store = true)
    (hc : c ∈ store) (hg : recValidB store g = true) :
    scoreOf (nl2int store) c.name g =
      some (posOf (valueAt g c.name) c.accepted_values) := by
  simp only [recValidB, Bool.and_eq_true] at hg
  obtain ⟨hg1, _⟩ := hg
  cases hperf : (evalPerf g.estimated_performance).2 with
  | none => rw [hperf] at hg1; simp at hg1
  | some tmp =>
    rw [hperf] at hg1
    simp only [List.all_eq_true] at hg1
    have hcv := hg1 c hc
    cases hlk : dlookup c.name tmp with
    | none => rw [hlk] at hcv; simp at hcv
    | some v =>
      rw [hlk] at hcv
      have hnl := buildNl2intAux_lookup c v store [] hval hdisj hc hcv
      simp only [scoreOf, valueAt, hperf, hlk, Option.getD_some]
      exact hnl

theorem tallyAll_append (nl : List (String × Nat)) (cn : String)
    (m : String × ScoredRec → Nat) :
    ∀ (outcome : List (String × ScoredRec)) (s f : List Nat),
    (∀ g ∈ outcome, scoreOf nl cn g.2 = some (m g)) →
    tallyAll nl cn outcome (s, f) =
      (s ++ (outcome.filter (fun g => !isFalseStr g.2.actual_success)).map m,
       f ++ (outcome.filter (fun g => isFalseStr g.2.actual_success)).map m) := by
  intro outcome
  induction outcome with
  | nil => intro s f _; simp [tallyAll]
  | cons g t ih =>
    intro s f h
    have hg := h g (List.mem_cons_self _ _)
    have hrest := fun g2 hg2 => h g2 (List.mem_cons_of_mem _ hg2)
    show tallyAll nl cn t (tallyGame nl cn (s, f) g) = _
    cases hb : isFalseStr g.2.actual_success with
    | true =>
      have hstep : tallyGame nl cn (s, f) g = (s, f ++ [m g]) := by
        simp [tallyGame, hg, hb]
      rw [hstep, ih _ _ hrest]
      simp [List.filter_cons, hb, List.append_assoc]
    | false =>
      have hstep : tallyGame nl cn (s, f) g = (s ++ [m g], f) := by
        simp [tallyGame, hg, hb]
      rw [hstep, ih _ _ hrest]
      simp [List.filter_cons, hb, List.append_assoc]

/-- Claim C5 (amended): provided no accepted label occurs in two different
criteria of the store, the aggregation behaves per the statistical contract:
for each criterion of the store, given a batch of valid scored records, it
partitions the records by `actual_success` equal to the string `false` or
not, maps each record's assigned value to its ordinal position in that
criterion's `accepted_values`, and computes `np.mean` and the external
95%-confidence interval per partition over all records of the partition —
no record is omitted.  (Without the disjointness proviso the claim fails:
see the counterexample, where a shared label makes the used ordinal that of
a later criterion.) -/
theorem claim_C5_amended_partition_statistics (ciFn : List Nat → ℚ × ℚ)
    (store : List Criterion) (outcome : List (String × ScoredRec)) (c : Criterion)
    (hstore : storeValidB store = true)
    (hdisj : labelsDisjointB store = true)
    (hc : c ∈ store)
    (hrecs : ∀ g ∈ outcome, recValidB store g.2 = true) :
    aggregateCriterion (nl2int store) outcome c.name =
      ((outcome.filter (fun g => !(g.2.actual_success = PyObj.str "false"))).map
          (fun g => posOf (valueAt g.2 c.name) c.accepted_values),
        (outcome.filter (fun g => g.2.actual_success = PyObj.str "false")).map
          (fun g => posOf (valueAt g.2 c.name) c.accepted_values))
    ∧ average_s (nl2int store) outcome c.name =
        npMean ((outcome.filter (fun g => !(g.2.actual_success = PyObj.str "false"))).map
          (fun g => posOf (valueAt g.2 c.name) c.accepted_values))
    ∧ average_f (nl2int store) outcome c.name =
        npMean ((outcome.filter (fun g => g.2.actual_success = PyObj.str "false")).map
          (fun g => posOf (valueAt g.2 c.name) c.accepted_values))
    ∧ conf_interval_s ciFn (nl2int store) outcome c.name =
        ciFn ((outcome.filter (fun g => !(g.2.actual_success = PyObj.str "false"))).map
          (fun g => posOf (valueAt g.2 c.name) c.accepted_values))
    ∧ conf_interval_f ciFn (nl2int store) outcome c.name =
        ciFn ((outcome.filter (fun g => g.2.actual_success = PyObj.str "false")).map
          (fun g => posOf (valueAt g.2 c.name) c.accepted_values)) := by
  have hval : store.all critValidB = true := by
    unfold storeValidB at hstore
    simp only [Bool.and_eq_true] at hstore
    exact hstore.2
  have hm : ∀ g ∈ outcome, scoreOf (nl2int store) c.name g.2 =
      some (posOf (valueAt g.2 c.name) c.accepted_values) :=
    fun g hg => scoreOf_valid store c g.2 hval hdisj hc (hrecs g hg)
  have hagg := tallyAll_append (nl2int store) c.name
    (fun g => posOf (valueAt g.2 c.name) c.accepted_values) outcome [] [] hm
  simp only [isFalseStr_eq, List.nil_append] at hagg
  have hmain : aggregateCriterion (nl2int store) outcome c.name =
      ((outcome.filter (fun g => !(g.2.actual_success = PyObj.str "false"))).map
          (fun g => posOf (valueAt g.2 c.name) c.accepted_values),
        (outcome.filter (fun g => g.2.actual_success = PyObj.str "false")).map
          (fun g => posOf (valueAt g.2 c.name) c.accepted_values)) := hagg
  refine ⟨hmain, ?_, ?_, ?_, ?_⟩ <;>
    simp [average_s, average_f, conf_interval_s, conf_interval_f, hmain]

/-- Claim C5 amended witness at a concrete store and batch: one success and
one failed record, each valid, land in their partitions with their ordinal
positions. -/
theorem claim_C5_amended_partition_statistics_witness :
    aggregateCriterion (nl2int [⟨"clarity", "clear reasoning", ["low", "high"]⟩])
      [("g1", ⟨PerfText.dictLit [("clarity", "high")], PyObj.str "true"⟩),
       ("g2", ⟨PerfText.dictLit [("clarity", "low")], PyObj.str "false"⟩)]
      "clarity" = ([1], [0]) := by
  have h := claim_C5_amended_partition_statistics (fun _ => (0, 0))
    [⟨"clarity", "clear reasoning", ["low", "high"]⟩]
    [("g1", ⟨PerfText.dictLit [("clarity", "high")], PyObj.str "true"⟩),
     ("g2", ⟨PerfText.dictLit [("clarity", "low")], PyObj.str "false"⟩)]
    ⟨"clarity", "clear reasoning", ["low", "high"]⟩
    (by decide) (by decide) (by decide) (by decide)
  exact h.1.trans (by decide)

/-- Claim C5 counterexample (the claim as stated, without the disjointness
proviso): with criteria `relevance = [yes, no]` and
`novelty = [no, maybe, yes]`, a success record assigning `relevance = yes` is
mapped through the shared `nl2int` to `2` — not to `0`, the ordinal position
of `yes` in relevance's own `accepted_values` — so the partition mean the
code computes differs from the mean of ordinal positions required by the
claim. -/
theorem claim_C5_counterexample_shared_label :
    average_s (nl2int [⟨"relevance", "", ["yes", "no"]⟩,
        ⟨"novelty", "", ["no", "maybe", "yes"]⟩])
      [("g1", ⟨PerfText.dictLit [("relevance", "yes"), ("novelty", "no")],
        PyObj.str "true"⟩)]
      "relevance" = some 2
    ∧ npMean [posOf "yes" ["yes", "no"]] = some 0
    ∧ average_s (nl2int [⟨"relevance", "", ["yes", "no"]⟩,
          ⟨"novelty", "", ["no", "maybe", "yes"]⟩])
        [("g1", ⟨PerfText.dictLit [("relevance", "yes"), ("novelty", "no")],
          PyObj.str "true"⟩)]
        "relevance" ≠ npMean [posOf "yes" ["yes", "no"]] := by
  refine ⟨?_, ?_, ?_⟩
  · show npMean [2] = some 2
    simp [npMean]
  · show npMean [0] = some 0
    simp [npMean]
  · show npMean [2] ≠ npMean [0]
    simp [npMean]

/-- Claim C10: the aggregation's partition test is
`outcome[game]["actual_success"] == "false"`: a processed record is counted
in the failed partition exactly when its `actual_success` is the exact
string `false`; any other stored value — the boolean `False`, the strings
`False` or `0`, numbers — fails the comparison and the record is counted in
the success partition. -/
theorem claim_C10_failed_partition_iff_false_string
    (nl : List (String × Nat)) (criterion : String) (acc : List Nat × List Nat)
    (gid : String) (g : ScoredRec) (n : Nat)
    (hscore : scoreOf nl criterion g = some n) :
    (∀ v : PyObj, isFalseStr v = true ↔ v = PyObj.str "false")
    ∧ (tallyGame nl criterion acc (gid, g) = (acc.1, acc.2 ++ [n]) ↔
        g.actual_success = PyObj.str "false")
    ∧ (¬g.actual_success = PyObj.str "false" →
        tallyGame nl criterion acc (gid, g) = (acc.1 ++ [n], acc.2)) := by
  refine ⟨isFalseStr_iff, ?_, ?_⟩
  · cases hb : isFalseStr g.actual_success with
    | true =>
      have hT : tallyGame nl criterion acc (gid, g) = (acc.1, acc.2 ++ [n]) := by
        simp [tallyGame, hscore, hb]
      constructor
      · intro _
        exact (isFalseStr_iff _).mp hb
      · intro _
        exact hT
    | false =>
      constructor
      · intro heq
        simp [tallyGame, hscore, hb] at heq
      · intro heq
        exact absurd ((isFalseStr_iff _).mpr heq) (by simp [hb])
  · intro hne
    have hb : isFalseStr g.actual_success = false := by
      cases hb2 : isFalseStr g.actual_success
      · rfl
      · exact absurd ((isFalseStr_iff _).mp hb2) hne
    simp [tallyGame, hscore, hb]

/-- Claim C10 witness: a record whose stored `actual_success` is the boolean
`False` is counted in the success partition. -/
theorem claim_C10_failed_partition_iff_false_string_witness :
    tallyGame [("good", 1)] "accuracy" ([], []) ("g1",
        ⟨PerfText.dictLit [("accuracy", "good")], PyObj.bool false⟩) =
      (([] : List Nat) ++ [1], ([] : List Nat)) :=
  (claim_C10_failed_partition_iff_false_string [("good", 1)] "accuracy" ([], [])
    "g1" ⟨PerfText.dictLit [("accuracy", "good")], PyObj.bool false⟩ 1 rfl).2.2
    (by decide)

/-- Modelled from the spec: the typed hard failure `quantify_criteria`
surfaces when the retry budget is exhausted without a fully valid mapping
(kind `QuantificationFailure`, section 7 of the spec). -/
structure QuantificationFailure where
  message : String
deriving DecidableEq

/-- A TestCase as loaded from one log file: the transcript to be scored and
its known ground-truth outcome. -/
structure TestCase where
  instanceText : String
  actual_success : PyObj
deriving DecidableEq

/-- One file visited by the batch loop: its directory, its file name, and
the test case `TestCase.create_from_file` yields from it. -/
structure BatchFile where
  dirName : String
  fileName : String
  tc : TestCase
deriving DecidableEq

/-- The check `file_name.split(".")[-1] == "json"`. -/
def isJsonFile (name : String) : Bool :=
  ((splitOnChar '.' name.toList).getLastD []) = "json".toList

/-- The state of the batch cell: the `outcome` dictionary it builds, the
`gameid`s for which `quantify_criteria` was invoked, and the uncaught
failure, if any, that aborted the loop. -/
structure BatchRun where
  outcome : List (String × ScoredRec)
  attempted : List String
  failure : Option QuantificationFailure
deriving DecidableEq

/-- The batch loop of the notebook: for each file whose extension is `json`,
build the test case and call `quantify_criteria` (modelled from the spec as
a function returning either a scored record or a `QuantificationFailure`).
The returned record is bound to `quantifier_output` and never stored into
`outcome` — no statement in the loop body writes to `outcome` — and a
failure surfaced by `quantify_criteria` is uncaught, aborting the loop. -/
def runBatch (q : TestCase → Except QuantificationFailure ScoredRec) :
    List BatchFile → BatchRun → BatchRun
  | [], st => st
  | f :: rest, st =>
    if isJsonFile f.fileName then
      match q f.tc with
      | Except.error e =>
        ⟨st.outcome, st.attempted ++ [f.dirName ++ "_" ++ f.fileName], some e⟩
      | Except.ok _r =>
        runBatch q rest
          ⟨st.outcome, st.attempted ++ [f.dirName ++ "_" ++ f.fileName], st.failure⟩
    else runBatch q rest st

/-- The mapping `json.dump` persists to `evaluated_problems.json` at the end
of the batch cell; when the loop is aborted by an uncaught failure the dump
statement is never reached and no file is written. -/
def persistedBatch (q : TestCase → Except QuantificationFailure ScoredRec)
    (files : List BatchFile) : Option (List (String × ScoredRec)) :=
  match (runBatch q files ⟨[], [], none⟩).failure with
  | some _ => none
  | none => some (runBatch q files ⟨[], [], none⟩).outcome

/-- Claim C6 (refuted by the code): the batch loop computes `gameid` and the
quantifier output but never stores anything into `outcome`, so for every
generation service and every batch, `outcome` stays exactly as initialized,
and the persisted `evaluated_problems.json` is the empty mapping even when a
test case was successfully quantified (third conjunct: the file was indeed
visited and quantified). -/
theorem claim_C6_outcome_never_populated :
    (∀ (q : TestCase → Except QuantificationFailure ScoredRec)
        (files : List BatchFile) (st : BatchRun),
      (runBatch q files st).outcome = st.outcome)
    ∧ persistedBatch
        (fun tc => Except.ok ⟨PerfText.dictLit [("accuracy", "good")], tc.actual_success⟩)
        [⟨"prealgebra", "p1.json", ⟨"solution text", PyObj.str "true"⟩⟩] = some []
    ∧ (runBatch
        (fun tc => Except.ok ⟨PerfText.dictLit [("accuracy", "good")], tc.actual_success⟩)
        [⟨"prealgebra", "p1.json", ⟨"solution text", PyObj.str "true"⟩⟩]
        ⟨[], [], none⟩).attempted = ["prealgebra_p1.json"] := by
  refine ⟨?_, rfl, rfl⟩
  intro q files
  induction files with
  | nil => intro st; rfl
  | cons f t ih =>
    intro st
    by_cases h : isJsonFile f.fileName
    · cases hq : q f.tc with
      | error e => simp [runBatch, h, hq]
      | ok r => simp [runBatch, h, hq, ih]
    · simp [runBatch, h, ih]

/-- A generation-service stub for which quantification of the first problem
exhausts its retries while the second problem quantifies fine. -/
def qStubC7 : TestCase → Except QuantificationFailure ScoredRec := fun tc =>
  if tc.instanceText = "problem A" then Except.error ⟨"retries exhausted"⟩
  else Except.ok ⟨PerfText.dictLit [("accuracy", "good")], tc.actual_success⟩

/-- The two-file batch on which `qStubC7` fails for the first file only. -/
def batchC7 : List BatchFile :=
  [⟨"prealgebra", "a.json", ⟨"problem A", PyObj.str "false"⟩⟩,
   ⟨"prealgebra", "b.json", ⟨"problem B", PyObj.str "true"⟩⟩]

/-- Claim C7 (refuted by the code): no `try/except` surrounds the
`quantify_criteria` call in the batch loop, so the failure surfaced for the
first test case aborts the loop — the second json file is never quantified
(only the first gameid was attempted), the failure propagates, and nothing
is persisted. -/
theorem claim_C7_failure_aborts_remaining_batch :
    (runBatch qStubC7 batchC7 ⟨[], [], none⟩).attempted = ["prealgebra_a.json"]
    ∧ (runBatch qStubC7 batchC7 ⟨[], [], none⟩).failure =
        some ⟨"retries exhausted"⟩
    ∧ persistedBatch qStubC7 batchC7 = none :=
  ⟨rfl, rfl, rfl⟩
